import Mathlib

/-!
Verification of the SAISHNAIK30/AI-CHATBOT hybrid retrieval engine.

We shallowly embed the core of `src/kb.py` (the evolved engine module;
`src/app.py` holds an earlier variant of the same functions).  Strings are
`List Char` with Python semantics restricted to ASCII (the corpus and all
patterns in the source are ASCII).  Python floats are modelled as exact
rationals where the code computes pure arithmetic, and as reals where
`math.log` is involved (the BM25 index).  External collaborators
(`rapidfuzz.fuzz`, the OpenAI chat call) are oracle parameters, matching the
spec, which declares them external interfaces.
-/

set_option maxRecDepth 8000

namespace KB

/-! ### Python character classes (ASCII fragment) -/

/-- Python `\s` (ASCII): space, tab, newline, carriage return, vertical tab,
form feed. -/
def pyIsWs (c : Char) : Bool :=
  c == ' ' || c == '\t' || c == '\n' || c == '\r' || c == '\x0b' || c == '\x0c'

/-- Python `\w` (ASCII): letters, digits, underscore. -/
def isWordCh (c : Char) : Bool :=
  c.isAlphanum || c == '_'

/-- Python `str.lower()` (ASCII). -/
def pyLower (s : List Char) : List Char :=
  s.map Char.toLower

/-- Python `str.lstrip()`. -/
def pyLStrip (s : List Char) : List Char :=
  s.dropWhile pyIsWs

/-- Python `str.rstrip()`. -/
def pyRStrip (s : List Char) : List Char :=
  (s.reverse.dropWhile pyIsWs).reverse

/-- Python `str.strip()`. -/
def pyStrip (s : List Char) : List Char :=
  pyRStrip (pyLStrip s)

/-- Python `str.strip(chars)` with an explicit character set. -/
def pyStripChars (cs : List Char) (s : List Char) : List Char :=
  ((s.dropWhile cs.contains).reverse.dropWhile cs.contains).reverse

/-- Python `needle in hay` on strings (substring test). -/
def containsSub (hay needle : List Char) : Bool :=
  hay.tails.any (fun t => needle.isPrefixOf t)

/-- Case-insensitive substring test (`needle in hay.lower()` with a lowered
needle). -/
def containsSubCI (hay needle : List Char) : Bool :=
  containsSub (pyLower hay) (pyLower needle)

/-- Python `str.split()` with no argument: split on whitespace runs, no empty
pieces. -/
def pySplitWs (s : List Char) : List (List Char) :=
  go s []
where
  go : List Char → List Char → List (List Char)
    | [], cur => if cur.isEmpty then [] else [cur.reverse]
    | c :: rest, cur =>
      if pyIsWs c then
        if cur.isEmpty then go rest [] else cur.reverse :: go rest []
      else go rest (c :: cur)

/-- Python `str.splitlines()` restricted to the line breaks appearing in this
repository (`\n`, `\r\n`, `\r`): no trailing empty line for a trailing
newline, and the empty string yields no lines. -/
def pySplitlines (s : List Char) : List (List Char) :=
  go s []
where
  go : List Char → List Char → List (List Char)
    | [], cur => if cur.isEmpty then [] else [cur.reverse]
    | '\r' :: '\n' :: rest, cur => cur.reverse :: go rest []
    | '\r' :: rest, cur => cur.reverse :: go rest []
    | '\n' :: rest, cur => cur.reverse :: go rest []
    | c :: rest, cur => go rest (c :: cur)

/-- Python `sep.join(parts)`. -/
def pyJoin (sep : List Char) (parts : List (List Char)) : List Char :=
  List.intercalate sep parts

/-- `" ".join(s.split())`: collapse internal whitespace. -/
def collapseWs (s : List Char) : List Char :=
  pyJoin [' '] (pySplitWs s)

/-! ### Tokenizer (kb.py 614-623) -/

/-- The `STOP` set of kb.py 614-619, in source order (the literal lists
`"into"` twice; a duplicate does not change membership). -/
def STOP : List (List Char) :=
  ["the", "and", "for", "that", "with", "this", "from", "into", "your", "you",
   "are", "was", "were", "have", "has", "had", "but", "not",
   "any", "can", "could", "should", "would", "will", "shall", "about", "also",
   "then", "than", "when", "what", "which", "how", "why",
   "use", "used", "using", "via", "into", "out", "over", "under", "on", "in",
   "of", "to", "a", "an", "is", "it", "be", "as", "at", "by",
   "or", "if", "we", "our", "their", "they", "them", "he", "she", "his",
   "her", "its"].map String.data

/-- kb.py `tokenize`: lower-case, replace every character that is not a word
character, whitespace or hyphen by a space, split on whitespace, keep tokens
of length above two that are not stop words. -/
def tokenize (s : List Char) : List (List Char) :=
  let s1 := pyLower s
  let s2 := s1.map (fun c => if isWordCh c || pyIsWs c || c == '-' then c else ' ')
  (pySplitWs s2).filter (fun w => decide (2 < w.length) && !(STOP.contains w))

/-! ### BM25 index (kb.py 625-645)

`math.log` forces real-valued scores; the structure fields mirror the
constructor's precomputations. -/

structure BM25 where
  docsTokens : List (List (List Char))
  k1 : ℝ
  b : ℝ

/-- `BM25(docs_tokens)` with the default `k1=1.5, b=0.75`. -/
def mkBM25 (docs : List (List (List Char))) : BM25 :=
  ⟨docs, 1.5, 0.75⟩

/-- `self.N = len(docs_tokens)`. -/
def BM25.N (bm : BM25) : ℕ :=
  bm.docsTokens.length

/-- `self.doc_len = [len(d) for d in docs_tokens]`. -/
def BM25.docLen (bm : BM25) : List ℕ :=
  bm.docsTokens.map List.length

/-- `self.df` at a term: the Counter is updated with `set(d)` per document, so
it counts the documents containing the term. -/
def BM25.df (bm : BM25) (t : List Char) : ℕ :=
  bm.docsTokens.countP (fun d => d.contains t)

/-- `self.avgdl = (sum(self.doc_len) / self.N) if self.N else 0`. -/
noncomputable def BM25.avgdl (bm : BM25) : ℝ :=
  if bm.N = 0 then 0 else (bm.docLen.sum : ℝ) / (bm.N : ℝ)

/-- kb.py 634-636: `idf(term) = ln(1 + (N - df + 0.5)/(df + 0.5))`, and `0.0`
when `N = 0`. -/
noncomputable def BM25.idf (bm : BM25) (t : List Char) : ℝ :=
  if bm.N = 0 then 0
  else Real.log (1 + ((bm.N : ℝ) - (bm.df t : ℝ) + 0.5) / ((bm.df t : ℝ) + 0.5))

/-- One iteration of the scoring loop (kb.py 640-644): a term not occurring in
the document is skipped (`continue`), contributing `0`. -/
noncomputable def BM25.termContrib (bm : BM25) (doc : List (List Char))
    (dl av : ℝ) (t : List Char) : ℝ :=
  let f : ℕ := doc.count t
  if f = 0 then 0
  else bm.idf t * (((f : ℝ) * (bm.k1 + 1)) /
    ((f : ℝ) + bm.k1 * (1 - bm.b + bm.b * dl / av)))

/-- kb.py 637-645: `score(q_tokens, doc_idx)`.  In Python an out-of-range
`doc_idx` raises `IndexError`; all call sites in the repository guard the
index, and we read an out-of-range document as empty (`getD`), which agrees
with the source on every in-range call.  The `or 1` fallbacks on `dl` and
`avgdl` are the explicit zero-guards. -/
noncomputable def BM25.score (bm : BM25) (q : List (List Char)) (idx : ℕ) : ℝ :=
  let doc := bm.docsTokens.getD idx []
  let dl : ℝ := if bm.docLen.getD idx 0 = 0 then 1 else (bm.docLen.getD idx 0 : ℝ)
  let av : ℝ := if bm.avgdl = 0 then 1 else bm.avgdl
  q.foldl (fun acc t => acc + bm.termContrib doc dl av t) 0

/-! ### Error-catalog table extraction (kb.py 650-693)

BeautifulSoup is an external parsing library; we embed the repository's own
logic on the parsed shape of a table: each cell carries its tag kind
(`th`/`td`) and its `get_text` content, a table carries the `th` texts of its
`thead` (when a `thead` element exists) and all its `tr` rows in document
order (`find_all` is recursive, so rows inside `thead` are included). -/

structure Cell where
  th : Bool
  txt : List Char
deriving DecidableEq

structure TrE where
  cells : List Cell
deriving DecidableEq

structure TableE where
  theadThs : Option (List (List Char))
  trs : List TrE
deriving DecidableEq

/-- kb.py `_clean_cell_text`: `" ".join(el.get_text(" ").split()).strip()`. -/
def cleanCell (raw : List Char) : List Char :=
  pyStrip (collapseWs raw)

def errorAliases : List (List Char) :=
  ["error", "errors", "message", "error message", "problem"].map String.data

def causeAliases : List (List Char) :=
  ["cause", "causes", "root cause"].map String.data

def remedyAliases : List (List Char) :=
  ["remedy", "solution", "fix", "resolution"].map String.data

def suggestionsAliases : List (List Char) :=
  ["suggestion", "suggestions", "note", "notes", "hint", "hints", "tip",
   "tips"].map String.data

/-- kb.py `_normalize_header`: exact alias lookup in the dict's insertion
order, then the substring fallbacks, then `h or "col"`. -/
def normalizeHeader (h0 : List Char) : List Char :=
  let h := pyLower (pyStrip h0)
  if errorAliases.contains h then "error".data
  else if causeAliases.contains h then "cause".data
  else if remedyAliases.contains h then "remedy".data
  else if suggestionsAliases.contains h then "suggestions".data
  else if containsSub h "error".data || containsSub h "message".data
      || containsSub h "problem".data then "error".data
  else if containsSub h "cause".data then "cause".data
  else if containsSub h "remedy".data || containsSub h "solution".data
      || containsSub h "fix".data || containsSub h "resolution".data then "remedy".data
  else if containsSub h "suggest".data || containsSub h "note".data
      || containsSub h "tip".data then "suggestions".data
  else if h.isEmpty then "col".data
  else h

/-- Python dict insertion: overwriting an existing key keeps its position. -/
def pyDictInsert (d : List (List Char × List Char)) (k v : List Char) :
    List (List Char × List Char) :=
  match d with
  | [] => [(k, v)]
  | (k0, v0) :: rest =>
    if k0 == k then (k0, v) :: rest else (k0, v0) :: pyDictInsert rest k v

/-- Python `dict.get(k, dflt)`. -/
def pyDictGet (d : List (List Char × List Char)) (k dflt : List Char) :
    List Char :=
  match d.find? (fun p => p.1 == k) with
  | some p => p.2
  | none => dflt

/-- kb.py 682: the cells dict
`{headers[i] if i < len(headers) else f"col{i}": _clean_cell_text(td) ...}`. -/
def buildCells (headers : List (List Char)) (tds : List (List Char)) :
    List (List Char × List Char) :=
  tds.enum.foldl
    (fun d p =>
      pyDictInsert d (headers.getD p.1 ("col".data ++ (Nat.repr p.1).data))
        (cleanCell p.2))
    []

/-- The `norm` record of kb.py 683-692. -/
structure Row where
  error : List Char
  cause : List Char
  remedy : List Char
  suggestions : List Char
  raw : List (List Char × List Char)
  text : List Char
deriving DecidableEq

/-- Build the `norm` dict of one data row; `text` joins the non-empty
normalized fields in field order. -/
def rowFromTr (headers : List (List Char)) (tds : List (List Char)) : Row :=
  let cells := buildCells headers tds
  let e := pyStrip (pyDictGet cells ("error".data) [])
  let c := pyStrip (pyDictGet cells ("cause".data) [])
  let r := pyStrip (pyDictGet cells ("remedy".data) [])
  let sg := pyStrip (pyDictGet cells ("suggestions".data) [])
  { error := e, cause := c, remedy := r, suggestions := sg, raw := cells,
    text := pyJoin [' '] ([e, c, r, sg].filter (fun v => !v.isEmpty)) }

/-- Header detection of kb.py 670-678: `thead` `th`s when present and
non-empty, else the cells (`th` and `td`) of the first row. -/
def tableHeaders (t : TableE) : List (List Char) :=
  let fromThead : List (List Char) :=
    match t.theadThs with
    | some ths =>
      if ths.isEmpty then [] else ths.map (fun h => normalizeHeader (cleanCell h))
    | none => []
  if !fromThead.isEmpty then fromThead
  else
    match t.trs.head? with
    | some tr => tr.cells.map (fun c => normalizeHeader (cleanCell c.txt))
    | none => []

/-- Data loop of kb.py 679-692 for one table: rows without `td` cells are
skipped, and a built row is kept only when its cleaned `error` field has at
least 3 characters. -/
def tableRows (t : TableE) : List Row :=
  let headers := tableHeaders t
  (t.trs.map (fun tr =>
    let tds := (tr.cells.filter (fun c => !c.th)).map Cell.txt
    if tds.isEmpty then []
    else
      let row := rowFromTr headers tds
      if 3 ≤ row.error.length then [row] else [])).flatten

/-- kb.py `extract_table_rows_from_html` on the parsed tables of a page. -/
def extract_table_rows_from_html (tables : List TableE) : List Row :=
  (tables.map tableRows).flatten

/-! ### Executable models of the regular expressions of kb.py

Each definition mirrors one specific compiled pattern, with Python `re`
semantics (leftmost match, ordered alternation, greedy quantifiers with
backtracking) worked out for that pattern.  Case-insensitive patterns lower
their input. -/

/-- `re.match(r"^\d+\.\s", ln)`: one or more digits, a dot, one whitespace,
at the start of the line. -/
def isNumberedLine (ln : List Char) : Bool :=
  let ds := ln.takeWhile Char.isDigit
  !ds.isEmpty &&
    (match ln.dropWhile Char.isDigit with
     | '.' :: c :: _ => pyIsWs c
     | _ => false)

/-- Match a `\s+`-separated word sequence starting at `pos`; returns the end
position.  A singleton sequence is an exact (possibly multi-word) literal. -/
def seqMatchFrom (s : List Char) : ℕ → List (List Char) → Option ℕ
  | pos, [] => some pos
  | pos, w :: rest =>
    if w.isPrefixOf (s.drop pos) then
      let p1 := pos + w.length
      match rest with
      | [] => some p1
      | _ :: _ =>
        let wsRun := ((s.drop p1).takeWhile pyIsWs).length
        if wsRun = 0 then none else seqMatchFrom s (p1 + wsRun) rest
    else none

/-- Search for any of the sequences with a `\b` boundary on both edges (all
the phrases used with this matcher start and end in word characters, for
which `\b` means: adjacent character absent or not a word character). -/
def seqSearchWB (s : List Char) (seqs : List (List (List Char))) : Bool :=
  (List.range (s.length + 1)).any (fun i =>
    seqs.any (fun ws =>
      match seqMatchFrom s i ws with
      | some e =>
        (decide (i = 0) || !isWordCh (s.getD (i - 1) ' ')) &&
          !isWordCh (s.getD e ' ')
      | none => false))

/-- `ALT_PAT` (kb.py 727): literal alternatives between `\b` boundaries,
case-insensitive. -/
def altSearch (s : List Char) : Bool :=
  seqSearchWB (pyLower s)
    ((["or", "alternatively", "optionally", "another way", "if that doesn’t",
       "if that does not", "if the issue persists"].map String.data).map
      (fun p => [p]))

/-- `ESCALATE_PAT` (kb.py 728): plain substring alternatives, no boundaries,
case-insensitive. -/
def escalateSearch (s : List Char) : Bool :=
  (["contact", "reach out", "open a ticket", "administrator",
    "support"].map String.data).any
    (fun p => containsSub (pyLower s) p)

/-- `GENERIC_FILLER_PAT` (kb.py 720-725): `\s+`-separated word sequences
between `\b` boundaries, case-insensitive. -/
def fillerSearch (s : List Char) : Bool :=
  seqSearchWB (pyLower s)
    ([["check", "for", "typos"], ["consult", "documentation"],
      ["refer", "to", "documentation"],
      ["make", "sure", "to", "double", "check"],
      ["ensure", "that", "everything", "is", "correct"]].map
      (List.map String.data))

/-- `UI_VISIBILITY_RE` (kb.py 1135), case-insensitive with `\b` edges. -/
def uiVisibilitySearch (s : List Char) : Bool :=
  seqSearchWB (pyLower s)
    (((["option", "options", "menu", "button", "tab", "checkbox", "missing",
        "disabled", "hidden"].map String.data).map (fun w => [w])) ++
      ([["not", "present"], ["not", "visible"], ["not", "found"]].map
        (List.map String.data)))

/-- `STEP_VERB_RE` (kb.py 777-780): anchored at the line start,
case-insensitive, `\b` after the verb. -/
def stepVerbSearch (s0 : List Char) : Bool :=
  let s := pyLower s0
  (["click", "open", "go to", "navigate", "set", "select", "choose", "enter",
    "type", "check", "uncheck", "enable", "disable", "restart", "run",
    "execute", "update", "apply", "save", "retry", "clear", "delete",
    "remove", "add", "verify", "confirm", "test"].map String.data).any
    (fun v => v.isPrefixOf s && !isWordCh (s.getD v.length ' '))

/-- `SHELL_CMD_PAT` (kb.py 703-717): anchored, optional `$` prompt with
whitespace, a command word, then whitespace or end of line;
case-insensitive. -/
def shellCmdSearch (s0 : List Char) : Bool :=
  let s := pyLower s0
  let rest := match s with
    | '$' :: r => r.dropWhile pyIsWs
    | _ => s
  (["sudo", "ls", "cat", "tail", "head", "grep", "awk", "sed", "find",
    "chmod", "chown", "chgrp", "cp", "mv", "rm", "mkdir", "rmdir", "ln",
    "touch", "systemctl", "service", "journalctl", "ssh", "scp", "sftp",
    "kubectl", "helm", "docker", "podman", "compose", "psql", "mysql",
    "mongo", "redis-cli", "curl", "wget", "tar", "zip", "unzip", "gzip",
    "gunzip"].map String.data).any
    (fun c => c.isPrefixOf rest &&
      (match rest.drop c.length with
       | [] => true
       | c2 :: _ => pyIsWs c2))

/-- `re.sub(r"^\$\s*", "", ln)`. -/
def subDollar (s : List Char) : List Char :=
  match s with
  | '$' :: r => r.dropWhile pyIsWs
  | _ => s

/-- Greedy digit tail `\d{lo,hi}\b` at `pos` (on a lowered string): succeeds
exactly when the maximal digit run has a length in `[lo, hi]` and the
character after it is not a word character (any shorter greedy retry ends on
a digit, which is a word character). -/
def digitTailWB (low : List Char) (pos lo hi : ℕ) : Option ℕ :=
  let d := ((low.drop pos).takeWhile Char.isDigit).length
  if lo ≤ d ∧ d ≤ hi ∧ !isWordCh (low.getD (pos + d) ' ') then some d else none

/-- One alternative of `ERROR_CODE_PAT` (kb.py 1161-1164) at position `i` of
the lowered string; returns the match length.  Alternatives are tried in the
pattern's order. -/
def errorCodeAltsAt (low : List Char) (i : ℕ) : Option ℕ :=
  if !(decide (i = 0) || !isWordCh (low.getD (i - 1) ' ')) then none
  else
    -- ORA-\d{4,5}\b
    (if "ora-".data.isPrefixOf (low.drop i) then
      (digitTailWB low (i + 4) 4 5).map (fun d => 4 + d)
     else none).orElse (fun _ =>
    -- SQLSTATE\s*[0-9A-Z]{5}\b  ([0-9A-Z] with IGNORECASE is any alphanumeric
    -- ASCII character; `_` is a word character outside the class)
    (if "sqlstate".data.isPrefixOf (low.drop i) then
      let w := ((low.drop (i + 8)).takeWhile pyIsWs).length
      let p := i + 8 + w
      if ((low.drop p).take 5).length = 5 ∧
          ((low.drop p).take 5).all Char.isAlphanum ∧
          !isWordCh (low.getD (p + 5) ' ') then
        some (8 + w + 5)
      else none
     else none).orElse (fun _ =>
    -- HTTP\s*[1-5]\d{2}\b
    (if "http".data.isPrefixOf (low.drop i) then
      let w := ((low.drop (i + 4)).takeWhile pyIsWs).length
      let p := i + 4 + w
      let c1 := low.getD p ' '
      if ('1' ≤ c1 ∧ c1 ≤ '5') ∧ (low.getD (p + 1) ' ').isDigit ∧
          (low.getD (p + 2) ' ').isDigit ∧ (p + 2 < low.length) ∧
          !isWordCh (low.getD (p + 3) ' ') then
        some (4 + w + 3)
      else none
     else none).orElse (fun _ =>
    -- [A-Z]{2,5}-\d{3,5}\b  (with IGNORECASE: any letters)
    (let l := ((low.drop i).takeWhile Char.isAlpha).length
     if 2 ≤ l ∧ l ≤ 5 ∧ low.getD (i + l) ' ' = '-' then
       (digitTailWB low (i + l + 1) 3 5).map (fun d => l + 1 + d)
     else none))))

/-- `ERROR_CODE_PAT.search(q)`: leftmost match, returning `m.group(0)` (the
slice of the original string). -/
def errorCodeSearch (s : List Char) : Option (List Char) :=
  let low := pyLower s
  ((List.range (low.length + 1)).findSome? (fun i =>
    (errorCodeAltsAt low i).map (fun L => (i, L)))).map
    (fun p => (s.drop p.1).take p.2)

/-- `re.findall(r'"([^"]+)"', q)`: non-overlapping quoted spans with
non-empty content. -/
def quotedSpansGo (fuel : ℕ) (s : List Char) : List (List Char) :=
  match fuel, s with
  | 0, _ => []
  | _, [] => []
  | fuel + 1, '"' :: rest =>
    let content := rest.takeWhile (fun c => !(c == '"'))
    if content.isEmpty then quotedSpansGo fuel rest
    else
      -- a closing quote exists exactly when the scan stopped early; the
      -- character at `content.length` is that quote
      if content.length < rest.length then
        content :: quotedSpansGo fuel (rest.drop (content.length + 1))
      else []
  | fuel + 1, _ :: rest => quotedSpansGo fuel rest

/-- Every step consumes at least one character, so `s.length` fuel is never
exhausted. -/
def quotedSpans (s : List Char) : List (List Char) :=
  quotedSpansGo s.length s

/-- The character class `[A-Za-z0-9_./:-]` of the "codey" token pattern. -/
def codeyCh (c : Char) : Bool :=
  c.isAlphanum || c == '_' || c == '.' || c == '/' || c == ':' || c == '-'

/-- `re.findall(r"\b[A-Za-z0-9_./:-]{3,}\b", q)`: at each position with a
start boundary, greedily take class characters and backtrack to the longest
length of at least 3 with an end boundary; matches do not overlap.  `prev` is
the character preceding the current suffix (absent at the string start). -/
def codeyGoF (fuel : ℕ) (prev : Option Char) (l : List Char) : List (List Char) :=
  match fuel, l with
  | 0, _ => []
  | _, [] => []
  | fuel + 1, c :: rest =>
    let prevWord := match prev with
      | some p => isWordCh p
      | none => false
    let startBd := prevWord != isWordCh c
    let run := l.takeWhile codeyCh
    let found :=
      if startBd then
        ((List.range (run.length + 1)).reverse.find? (fun k =>
          decide (3 ≤ k) &&
            (isWordCh (run.getD (k - 1) ' ') !=
              match (l.drop k).head? with
              | some n => isWordCh n
              | none => false)))
      else none
    match found with
    | some k =>
      -- the search predicate enforces `3 ≤ k`; since `k ≥ 1`,
      -- `l.drop k = rest.drop (k - 1)`
      if 3 ≤ k then
        l.take k :: codeyGoF fuel (some (l.getD (k - 1) ' ')) (rest.drop (k - 1))
      else []
    | none => codeyGoF fuel (some c) rest

/-- Every step consumes at least one character, so `l.length` fuel is never
exhausted. -/
def codeyGo (prev : Option Char) (l : List Char) : List (List Char) :=
  codeyGoF l.length prev l

/-- `list(dict.fromkeys(spans))`: deduplicate keeping first occurrences. -/
def dedupKeepFirst (seen : List (List Char)) : List (List Char) → List (List Char)
  | [] => []
  | x :: r =>
    if seen.contains x then dedupKeepFirst seen r
    else x :: dedupKeepFirst (x :: seen) r

/-- The case-sensitive filter
`re.search(r"[A-Z]{2,}-\d{2,}|ORA-\d{4,5}|SQLSTATE|HTTP\s*[1-5]\d{2}", t)`
applied to each codey token (existence of a match at any position). -/
def codeyFilter (t : List Char) : Bool :=
  (List.range (t.length + 1)).any (fun i =>
    let l := t.drop i
    -- [A-Z]{2,}-\d{2,}
    (let u := (l.takeWhile Char.isUpper).length
     decide (2 ≤ u) && (l.getD u ' ' == '-') &&
       decide (2 ≤ ((l.drop (u + 1)).takeWhile Char.isDigit).length)) ||
    -- ORA-\d{4,5}
    ("ORA-".data.isPrefixOf l &&
      decide (4 ≤ ((l.drop 4).takeWhile Char.isDigit).length)) ||
    -- SQLSTATE
    "SQLSTATE".data.isPrefixOf l ||
    -- HTTP\s*[1-5]\d{2}
    ("HTTP".data.isPrefixOf l &&
      (let w := ((l.drop 4).takeWhile pyIsWs).length
       let c1 := l.getD (4 + w) ' '
       decide ('1' ≤ c1) && decide (c1 ≤ '5') &&
         (l.getD (4 + w + 1) ' ').isDigit && (l.getD (4 + w + 2) ' ').isDigit)))

/-- kb.py `_extract_query_spans`. -/
def extractQuerySpans (q : List Char) : List (List Char) :=
  let quoted := ((quotedSpans q).map pyStrip).filter (fun m => 3 ≤ m.length)
  let codeyKept := (codeyGo none q).filter codeyFilter
  dedupKeepFirst [] (quoted ++ codeyKept)

/-! ### Configuration (kb.py 84-104)

The recognized environment options with their default values.  Decimal
environment floats are exact rationals.  `llmEnabled` stands for
`USE_LLM and OPENAI_API_KEY`; with the default empty `OPENAI_API_KEY` it is
false. -/

structure Config where
  rowScoreMin : ℚ
  pinpointMaxSteps : ℕ
  maxSections : ℕ
  maxAnswerChars : ℤ
  maxSourcesPerAnswer : ℕ
  maxStepLines : ℕ
  errorTitleHints : List (List Char)
  errorPageBias : ℚ
  errorRowHardmatch : Bool
  strictRemedyOnly : Bool
  forbiddenPhrases : List (List Char)
  llmEnabled : Bool

def defaultConfig : Config :=
  { rowScoreMin := 0.92
    pinpointMaxSteps := 5
    maxSections := 1
    maxAnswerChars := -1
    maxSourcesPerAnswer := 1
    maxStepLines := 12
    errorTitleHints :=
      ["error", "errors", "solution", "solutions", "catalog"].map String.data
    errorPageBias := 0.18
    errorRowHardmatch := true
    strictRemedyOnly := true
    forbiddenPhrases :=
      ["contact support", "contact administrator", "system administrator",
       "open a ticket", "reach out to support", "consult support",
       "consult administrator"].map String.data
    llmEnabled := false }

/-! ### External collaborators as oracles

`rapidfuzz.fuzz` similarity ratios and the OpenAI chat call are external
libraries; theorems that depend on their values carry explicit hypotheses
(e.g. ratios lie in `[0, 100]`). -/

structure Fz where
  pr : List Char → List Char → ℚ
  tsr : List Char → List Char → ℚ

/-- A constant-ratio oracle, used to instantiate witnesses. -/
def constFz (v : ℚ) : Fz :=
  ⟨fun _ _ => v, fun _ _ => v⟩

structure Llm where
  chat : List Char → ℚ → List Char

/-- The silent formatter (every call fails or the key is missing). -/
def silentLlm : Llm :=
  ⟨fun _ _ => []⟩

/-! ### Output sanitizer (kb.py 731-765) -/

/-- The per-line keep condition of the loop in `sanitize_output`: the
`numbered_started` bookkeeping has an empty body (`pass`) and never affects
which lines are kept. -/
def sanitizeKeepLine (cfg : Config) (ln : List Char) : Bool :=
  let low := pyStrip (pyLower ln)
  !(cfg.forbiddenPhrases.any (fun p => containsSub low p) || escalateSearch low) &&
    !(altSearch low && !isNumberedLine ln) &&
    !(fillerSearch low) &&
    !(pyStrip ln).isEmpty

/-- `re.split(r"\n(?=\d+\.\s)", out)`: the newline is consumed, the lookahead
is not. -/
def splitBeforeNumbered (s : List Char) : List (List Char) :=
  go s []
where
  go : List Char → List Char → List (List Char)
    | [], cur => [cur.reverse]
    | '\n' :: rest, cur =>
      if isNumberedLine rest then cur.reverse :: go rest []
      else go rest ('\n' :: cur)
    | c :: rest, cur => go rest (c :: cur)

/-- `re.sub(r"\n{3,}", "\n\n", s)`: every maximal newline run of length at
least 3 becomes two newlines, i.e. keep the first two newlines of each run
(`k` counts the newlines of the current run seen so far). -/
def collapseNL3 (k : ℕ) : List Char → List Char
  | [] => []
  | c :: rest =>
    if c == '\n' then
      if k < 2 then c :: collapseNL3 (k + 1) rest else collapseNL3 2 rest
    else c :: collapseNL3 0 rest

/-- kb.py `sanitize_output`. -/
def sanitize_output (cfg : Config) (text : List Char) : List Char :=
  let lines := (pySplitlines text).map pyRStrip
  let keep := lines.filter (sanitizeKeepLine cfg)
  let out := pyStrip (pyJoin "\n".data keep)
  let out2 :=
    match splitBeforeNumbered out with
    | [] => out
    | [_] => out
    | b0 :: rest =>
      b0 ++ '\n' :: pyJoin "\n".data (rest.filter (fun b =>
        "1.".data.isPrefixOf b || "Notes:".data.isPrefixOf b))
  pyStrip (collapseNL3 0 out2)

/-! ### Answer post-processing (kb.py 767-775) -/

/-- `re.split(r"\bSource:", raw)[0]`: the prefix before the first
word-boundary occurrence of `Source:`. -/
def splitAtBSource (s : List Char) : List Char :=
  match (List.range (s.length + 1)).find? (fun i =>
    "Source:".data.isPrefixOf (s.drop i) &&
      (decide (i = 0) || !isWordCh (s.getD (i - 1) ' '))) with
  | some i => s.take i
  | none => s

/-- `re.sub(r"[ \t]+", " ", s)`: collapse space-and-tab runs to one space
(`inRun` records whether the previous character was in such a run). -/
def collapseST (inRun : Bool) : List Char → List Char
  | [] => []
  | c :: rest =>
    if c == ' ' || c == '\t' then
      if inRun then collapseST true rest else ' ' :: collapseST true rest
    else c :: collapseST false rest

/-- `re.sub(r"\n\s*\n", "\n\n", s)`: a match starts at a newline whose
maximal whitespace run contains a second newline and extends to the last
newline of that run; the replacement is two newlines and scanning resumes
after the match. -/
def blankCollapseGo (fuel : ℕ) (s : List Char) : List Char :=
  match fuel, s with
  | 0, s => s
  | _, [] => []
  | fuel + 1, c :: rest =>
    if c == '\n' then
      let run := (c :: rest).takeWhile pyIsWs
      if 2 ≤ run.count '\n' then
        let lastIdx := run.length - 1 - (run.reverse.findIdx (fun x => x == '\n'))
        '\n' :: '\n' :: blankCollapseGo fuel (rest.drop lastIdx)
      else c :: blankCollapseGo fuel rest
    else c :: blankCollapseGo fuel rest

/-- Every step consumes at least one character, so `s.length` fuel is never
exhausted. -/
def blankCollapse (s : List Char) : List Char :=
  blankCollapseGo s.length s

/-- Case-insensitive literal prefix test. -/
def ciPrefix (pat s : List Char) : Bool :=
  pat.isPrefixOf (pyLower (s.take pat.length))

/-- One-or-more repetitions of `\n\s*Do this:` (after the first repetition,
whose leading whitespace may also satisfy the preceding `\s*`); returns the
suffix after the last repetition.  `first` tells whether the outer `\s*`
may still absorb leading non-newline whitespace.  `fuel` bounds the
recursion; every repetition consumes at least nine characters, so
`s.length` fuel is never exhausted. -/
def doThisReps (fuel : ℕ) (first : Bool) (s : List Char) : Option (List Char) :=
  match fuel with
  | 0 => none
  | fuel + 1 =>
    let run := s.takeWhile pyIsWs
    let ok := if first then decide (1 ≤ run.count '\n')
      else run.headD ' ' == '\n'
    if ok && ciPrefix "do this:".data (s.drop run.length) then
      let after := (s.drop run.length).drop 8
      match doThisReps fuel false after with
      | some r => some r
      | none => some after
    else none

/-- `re.sub(r"(Do this:)\s*(\n\s*Do this:)+", r"\1", out, flags=re.I)`:
collapse consecutive `Do this:` headers to the first one. -/
def dedupDoThis (fuel : ℕ) (s : List Char) : List Char :=
  match fuel, s with
  | 0, s => s
  | _ + 1, [] => []
  | fuel + 1, c :: rest =>
    if ciPrefix "do this:".data (c :: rest) then
      match doThisReps ((c :: rest).length) true ((c :: rest).drop 8) with
      | some remaining => (c :: rest).take 8 ++ dedupDoThis fuel remaining
      | none => c :: dedupDoThis fuel rest
    else c :: dedupDoThis fuel rest

/-- kb.py `post_process_answer`: drop everything from a `Source:` marker,
collapse horizontal whitespace and blank lines, right-strip lines, collapse
repeated `Do this:` headers, and optionally hard-truncate. -/
def post_process_answer (cfg : Config) (raw : List Char) : List Char :=
  let r1 := splitAtBSource raw
  let r2 := collapseST false r1
  let r3 := blankCollapse r2
  let r4 := pyStrip (pyJoin "\n".data ((pySplitlines r3).map pyRStrip))
  let r5 := dedupDoThis r4.length r4
  if 0 ≤ cfg.maxAnswerChars then
    if cfg.maxAnswerChars < (r5.length : ℤ) then
      r5.take (cfg.maxAnswerChars - 1).toNat ++ ['…']
    else r5
  else r5

/-! ### Deterministic row formatting (kb.py 777-886) -/

/-- `re.split(r"[.;]\s+|\n+", s)`: a delimiter is a dot or semicolon followed
by a maximal whitespace run, or a maximal newline run (the first alternative
wins where both could start). -/
def stepSplitGo (fuel : ℕ) (s cur : List Char) : List (List Char) :=
  match fuel, s with
  | 0, _ => [cur.reverse]
  | _, [] => [cur.reverse]
  | fuel + 1, c :: rest =>
    let wsRun := rest.takeWhile pyIsWs
    if (c == '.' || c == ';') && !wsRun.isEmpty then
      cur.reverse :: stepSplitGo fuel (rest.drop wsRun.length) []
    else if c == '\n' then
      cur.reverse :: stepSplitGo fuel (rest.dropWhile (fun x => x == '\n')) []
    else stepSplitGo fuel rest (c :: cur)

/-- Every step consumes at least one character, so `s.length` fuel is never
exhausted. -/
def stepSplitRe (s : List Char) : List (List Char) :=
  stepSplitGo s.length s []

/-- The orphan-merging loop of `_crisp_lines`: a fragment of length at most
two is folded into the previous fragment. -/
def mergeOrphans (acc : List (List Char)) : List (List Char) → List (List Char)
  | [] => acc.reverse
  | p :: r =>
    if p.length ≤ 2 then
      match acc with
      | a :: as => mergeOrphans (pyStrip (a ++ ' ' :: p) :: as) r
      | [] => mergeOrphans (p :: acc) r
    else mergeOrphans (p :: acc) r

/-- kb.py `_crisp_lines`. -/
def crispLines (s : List Char) : List (List Char) :=
  let raw := (stepSplitRe s).filterMap (fun x =>
    if (pyStrip x).isEmpty then none else some (pyStripChars " -•\t".data x))
  mergeOrphans [] raw

/-- kb.py `group_commands`: returns `(non_command_steps, command_lines)`. -/
def group_commands (lines : List (List Char)) :
    List (List Char) × List (List Char) :=
  (lines.filter (fun ln => !shellCmdSearch ln),
   (lines.filter shellCmdSearch).map (fun ln => pyStrip (subDollar ln)))

/-- The step list emitted by `format_row_better` (kb.py 808-822): imperative
or path-like fragments of the remedy (falling back to all fragments), capped
at the *static* configured floor `PINPOINT_MAX_STEPS`. -/
def formatRowSteps (cfg : Config) (row : Row) : List (List Char) :=
  let stepsAll := (group_commands (crispLines row.remedy)).1
  let filtered0 := stepsAll.filter (fun ln =>
    stepVerbSearch ln || ln.contains ':' || ln.contains '>' || ln.contains '/')
  (if filtered0.isEmpty then stepsAll else filtered0).take cfg.pinpointMaxSteps

/-- kb.py `format_row_better` (the deterministic, no-LLM answer builder). -/
def format_row_better (cfg : Config) (row : Row) : List Char :=
  let title := pyStrip row.error
  let cause := pyStrip row.cause
  let cmdLines := (group_commands (crispLines row.remedy)).2
  let tipsAll := crispLines row.suggestions
  let capped := formatRowSteps cfg row
  let notes := (tipsAll.filter (fun t => !fillerSearch (pyLower t))).take 2
  let lines :=
    (if title.isEmpty then [] else ["Resolution for: ".data ++ title]) ++
    (if cause.isEmpty then [] else ["\nWhy:".data, "- ".data ++ cause]) ++
    (if capped.isEmpty then []
     else "\nDo this:".data ::
       capped.enum.map (fun p => (Nat.repr (p.1 + 1)).data ++ ". ".data ++ p.2)) ++
    (if cmdLines.isEmpty then []
     else "\nCommands:".data :: "```bash".data :: cmdLines ++ ["```".data]) ++
    (if notes.isEmpty then []
     else "\nNotes:".data :: notes.map (fun t => "- ".data ++ t))
  pyStrip (pyJoin "\n".data lines)

/-- The count of action-like fragments of a remedy text (kb.py 871-872):
imperative-verb fragments or fragments with path-like punctuation. -/
def actionyCount (remedyText : List Char) : ℕ :=
  ((stepSplitRe remedyText).filterMap (fun p =>
    if (pyStrip p).isEmpty then none else some (pyStrip p))).countP
    (fun p => stepVerbSearch p || p.contains ':' || p.contains '>' || p.contains '/')

/-- kb.py `_estimate_step_cap_from_text`: the dynamic step ceiling from the
count of action-like fragments.  Note that the empty-text early return
(`max(4, base_cap)`) bypasses the final `min(cap, 20)`. -/
def estimateStepCapFromText (remedyText : List Char) (baseCap : ℕ) : ℕ :=
  if remedyText.isEmpty then max 4 baseCap
  else
    let actiony := actionyCount remedyText
    let cap :=
      if 12 ≤ actiony then max baseCap 12
      else if 9 ≤ actiony then max baseCap 10
      else if 7 ≤ actiony then max baseCap 8
      else if 5 ≤ actiony then max baseCap 7
      else max 4 baseCap
    min cap 20

/-! ### LLM formatter paths (kb.py 890-1041)

The prompts interpolate the KB payload, the user query and the dynamic step
cap into a fixed English instruction text; only the interpolated data is
semantically relevant (the response is an oracle), so the fixed prose is
abbreviated here. -/

def synthRowPrompt (kb q : List Char) (cap : ℕ) : List Char :=
  "You are a formatter. Produce ONE linear resolution path using ONLY the KB text.\n<KB>\n".data ++
    kb ++ "\n</KB>\n\nUser: ".data ++ q ++
    "\n\nRULES: numbered steps, up to ".data ++ (Nat.repr cap).data ++
    " steps; one path; no escalation.\n".data

def synthChunksPrompt (kb q : List Char) (cap : ℕ) : List Char :=
  "Rewrite ONE linear resolution path using ONLY the KB text.\n<KB>\n".data ++
    kb ++ "\n</KB>\n\nQuestion: ".data ++ q ++
    "\n\nRULES: numbered steps, up to ".data ++ (Nat.repr cap).data ++
    " steps; single path only.\n".data

/-- The command-grouping loop shared by `synthesize_from_row` and
`synthesize_from_chunks` (kb.py 944-962 and 1018-1036): command lines are
buffered and flushed as fenced `bash` blocks. -/
def cmdGroupLines : List (List Char) → List (List Char) → List (List Char)
  | [], buf => flushBuf buf
  | ln :: rest, buf =>
    let lnS := pyStrip ln
    if shellCmdSearch lnS then cmdGroupLines rest (buf ++ [subDollar lnS])
    else flushBuf buf ++ ln :: cmdGroupLines rest []
where
  flushBuf (buf : List (List Char)) : List (List Char) :=
    if buf.isEmpty then [] else "```bash".data :: buf ++ ["```".data]

/-- kb.py `synthesize_from_row`. -/
def synthesize_from_row (cfg : Config) (llm : Llm) (row : Row) (q : List Char) :
    List Char :=
  if !cfg.llmEnabled then []
  else
    let kbBits :=
      (if row.error.isEmpty then [] else ["Error: ".data ++ row.error]) ++
      (if row.cause.isEmpty then [] else ["Cause: ".data ++ row.cause]) ++
      (if row.remedy.isEmpty then [] else ["Remedy: ".data ++ row.remedy]) ++
      (if row.suggestions.isEmpty then []
       else ["Suggestions: ".data ++ row.suggestions])
    let kb := (pyJoin "\n".data kbBits).take 3200
    let cap := estimateStepCapFromText row.remedy cfg.pinpointMaxSteps
    let raw := pyStrip (llm.chat (synthRowPrompt kb q cap) 0)
    if raw.isEmpty then []
    else
      let lines := (pySplitlines raw).map pyRStrip
      let cleaned := lines.filter (fun ln => !fillerSearch ln)
      let out := pyStrip (pyJoin "\n".data (cmdGroupLines cleaned []))
      post_process_answer cfg (sanitize_output cfg out)

/-- kb.py `synthesize_from_chunks`. -/
def synthesize_from_chunks (cfg : Config) (llm : Llm) (q : List Char)
    (chunks : List (List Char)) : List Char :=
  if !cfg.llmEnabled then []
  else
    let joined := (pyJoin "\n\n---\n\n".data chunks).take 6000
    let cap := estimateStepCapFromText joined cfg.pinpointMaxSteps
    let raw := pyStrip (llm.chat (synthChunksPrompt joined q cap) 0)
    if raw.isEmpty then []
    else
      let lines := (pySplitlines raw).map pyRStrip
      let cleaned := lines.filter (fun ln => !fillerSearch ln)
      let out := pyStrip (pyJoin "\n".data (cmdGroupLines cleaned []))
      post_process_answer cfg (sanitize_output cfg out)

/-! ### Row scorer (kb.py 1161-1227) -/

def GENERIC_WORDS : List (List Char) :=
  ["introduction", "overview", "general", "faq", "guide", "tips",
   "troubleshooting", "how to", "index", "contents"].map String.data

/-- kb.py `_title_generic_penalty`. -/
def titleGenericPenalty (title : List Char) : ℚ :=
  if GENERIC_WORDS.any (fun w => containsSub (pyLower title) w) then 0.10 else 0

/-- The hard-match component (kb.py 1189-1196). -/
def hardScore (cfg : Config) (row : Row) (q ql : List Char) : ℚ :=
  if cfg.errorRowHardmatch then
    if !row.error.isEmpty && !ql.isEmpty &&
        (containsSub (pyLower row.error) ql ||
          containsSub ql (pyLower row.error)) then 1
    else
      match errorCodeSearch q with
      | some m =>
        if containsSub (pyLower row.error) (pyLower m) ||
            containsSub (pyLower row.text) (pyLower m) then 0.95
        else 0
      | none => 0
  else 0

/-- The weighted fuzzy blend (kb.py 1198-1202). -/
def fuzzyBase (fz : Fz) (ql err txt : List Char) : ℚ :=
  0.52 * (fz.pr ql (pyLower err) / 100) + 0.20 * (fz.tsr ql (pyLower err) / 100) +
    0.18 * (fz.pr ql (pyLower txt) / 100) + 0.10 * (fz.tsr ql (pyLower txt) / 100)

/-- The count of query spans found verbatim in the row (kb.py 1217-1220). -/
def spanHitCount (row : Row) (q : List Char) : ℕ :=
  ((extractQuerySpans q).filter (fun span =>
    let s := pyLower span
    !s.isEmpty && (containsSub (pyLower row.error) s ||
      containsSub (pyLower row.text) s))).length

/-- kb.py `score_row_against_query`: `max(hard, fuzzy_base)` plus the bias
terms, minus the generic-title penalty, clamped to `[0, 1]`. -/
def score_row_against_query (cfg : Config) (fz : Fz) (row : Row)
    (query pageTitle : List Char) : ℚ :=
  let q := pyStrip query
  let ql := pyLower q
  let base :=
    max (hardScore cfg row q ql) (fuzzyBase fz ql row.error row.text) +
    (if row.remedy.isEmpty then 0 else 0.08) +
    (if !row.remedy.isEmpty && decide (120 < row.remedy.length) then 0.03 else 0) +
    (if !pageTitle.isEmpty &&
        cfg.errorTitleHints.any (fun h => containsSub (pyLower pageTitle) h) then
      cfg.errorPageBias else 0) +
    (if uiVisibilitySearch ql &&
        (uiVisibilitySearch (pyLower row.text) ||
          uiVisibilitySearch (pyLower row.error)) then 0.08 else 0) +
    0.05 * (spanHitCount row q : ℚ) +
    (if pageTitle.isEmpty then 0 else 0.04 * (fz.pr ql (pyLower pageTitle) / 100)) -
    titleGenericPenalty pageTitle
  max 0 (min 1 base)

/-! ### Knowledge-base state and candidate ranking (kb.py 1229-1241)

One generation of the global collections built by `preload_knowledge`
(`KB_PAGES`, `KB_SECTIONS`, `KB_ROWS`, `ROW_TOKENS`, and the two optional
BM25 indexes, which are `None` exactly when their collection is empty). -/

structure PageE where
  title : List Char
  url : List Char
  text : List Char
  html : List Char

structure SectionE where
  title : List Char
  url : List Char
  text : List Char
  tokens : List (List Char)

structure RowItem where
  title : List Char
  url : List Char
  row : Row

structure KBState where
  pages : List PageE
  sections : List SectionE
  rows : List RowItem
  rowTokens : List (List (List Char))
  sectionBM25 : Option BM25
  rowBM25 : Option BM25

/-- Python `list.sort(key=..., reverse=True)`: a stable merge sort placing
larger keys first (ties keep their original relative order). -/
def stableSortDesc {α : Type} {β : Type} [LinearOrder β] (key : α → β)
    (l : List α) : List α :=
  l.mergeSort (fun a b => decide (key b ≤ key a))

/-- The blended score of one candidate (kb.py 1232-1238): the row score,
blended `0.90/0.10` with the secondary BM25-over-rows signal when that index
exists and the row index is in range (`x or 0.0` on a float is the
identity), plus the small title-fuzzy bonus. -/
noncomputable def candScore (cfg : Config) (fz : Fz) (st : KBState)
    (q : List Char) (i : ℕ) (item : RowItem) : ℝ :=
  let sc0 : ℝ := (score_row_against_query cfg fz item.row q item.title : ℚ)
  let sc1 : ℝ :=
    if st.rowBM25.isSome ∧ i < st.rowTokens.length then
      0.90 * sc0 + 0.10 * ((st.rowBM25.getD (mkBM25 [])).score (tokenize q) i)
    else sc0
  if item.title.isEmpty then sc1
  else sc1 + 0.05 * ((fz.pr (pyLower q) (pyLower item.title) / 100 : ℚ) : ℝ)

/-- kb.py `get_row_candidates`: score every row in extraction order, sort
descending (stable), return the top `top_k`. -/
noncomputable def get_row_candidates (cfg : Config) (fz : Fz) (st : KBState)
    (q : List Char) (topK : ℕ) : List (ℝ × ℕ × RowItem) :=
  let cands := st.rows.enum.map (fun p => (candScore cfg fz st q p.1 p.2, p.1, p.2))
  (stableSortDesc (fun c => c.1) cands).take topK

/-! ### Section ranker (kb.py 1243-1300) -/

/-- The blended section score (kb.py 1248-1253). -/
noncomputable def sectionScore (cfg : Config) (fz : Fz) (st : KBState)
    (qTokens : List (List Char)) (ql : List Char) (idx : ℕ) (sec : SectionE) :
    ℝ :=
  let bm : ℝ := match st.sectionBM25 with
    | some b => b.score qTokens idx
    | none => 0
  let sc := 0.85 * bm + 0.15 * ((fz.pr ql (pyLower sec.title) / 100 : ℚ) : ℝ)
  if cfg.errorTitleHints.any (fun h => containsSub (pyLower sec.title) h) then
    sc + (cfg.errorPageBias : ℝ) * 0.7
  else sc

/-- `re.split(r"(?<=[.!?])\s+", s)`: split at maximal whitespace runs whose
preceding character is a sentence terminator (`prev` tracks the previous
character). -/
def sentenceSplitGo (fuel : ℕ) (prev : Option Char) (s cur : List Char) :
    List (List Char) :=
  match fuel, s with
  | 0, _ => [cur.reverse]
  | _, [] => [cur.reverse]
  | fuel + 1, c :: rest =>
    if pyIsWs c &&
        (prev == some '.' || prev == some '!' || prev == some '?') then
      let run := rest.takeWhile pyIsWs
      cur.reverse :: sentenceSplitGo fuel (some (run.getLastD c)) (rest.drop run.length) []
    else sentenceSplitGo fuel (some c) rest (c :: cur)

/-- Every step consumes at least one character, so `s.length` fuel is never
exhausted. -/
def sentenceSplit (s : List Char) : List (List Char) :=
  sentenceSplitGo s.length none s []

/-- `re.search(r"[>/]|(menu|tab|button|field|checkbox)", s, re.I)`. -/
def uiHintSearch (s : List Char) : Bool :=
  s.contains '>' || s.contains '/' ||
    (["menu", "tab", "button", "field", "checkbox"].map String.data).any
      (fun w => containsSub (pyLower s) w)

/-- The source-collection loop of kb.py 1264-1268: first occurrence of each
title, capped at `MAX_SOURCES_PER_ANSWER`. -/
def buildSources (st : KBState) (maxS : ℕ) :
    List ℕ → List (List Char) → List (List Char × List Char) →
      List (List Char × List Char)
  | [], _, acc => acc.reverse
  | i :: rest, seen, acc =>
    let sec := st.sections.getD i ⟨[], [], [], []⟩
    if !seen.contains sec.title && acc.length < maxS then
      buildSources st maxS rest (sec.title :: seen) ((sec.title, sec.url) :: acc)
    else buildSources st maxS rest seen acc

/-- The sentence score of the pure-extractive fallback (kb.py 1279-1288). -/
def sentenceRank (qTokens : List (List Char)) (s : List Char) :
    ℚ × List Char :=
  let stoks := tokenize s
  let overlap : ℕ :=
    ((dedupKeepFirst [] stoks).filter (fun t => qTokens.contains t)).length
  let density : ℚ := (overlap : ℚ) / ((stoks.length : ℚ) + 1 / 1000000)
  let imperative : ℚ := if stepVerbSearch s then 1 else 0
  let uiHint : ℚ := if uiHintSearch s then 1 else 0
  (0.60 * (overlap : ℚ) + 0.25 * density + 0.10 * imperative + 0.05 * uiHint, s)

/-- kb.py `answer_sections`: BM25+title ranking, chunk selection, the LLM
formatter when it yields text, else the pure-extractive summary. -/
noncomputable def answer_sections (cfg : Config) (fz : Fz) (llm : Llm)
    (st : KBState) (query : List Char) :
    List Char × List (List Char × List Char) :=
  let qTokens := tokenize query
  let ql := pyLower query
  let scored := st.sections.enum.map (fun p =>
    (sectionScore cfg fz st qTokens ql p.1 p.2, p.1))
  let sortedScored := stableSortDesc (fun x => x.1) scored
  let chunksSources : List (List Char) × List (List Char × List Char) :=
    if scored.isEmpty ∧ !st.pages.isEmpty then
      match st.pages.head? with
      | some p0 => ([p0.text.take 800], [(p0.title, p0.url)])
      | none => ([], [])
    else
      let top := (sortedScored.take cfg.maxSections).map (fun x => x.2)
      let chunks := top.map (fun i =>
        pyStrip ((st.sections.getD i ⟨[], [], [], []⟩).text.take 700))
      (chunks, buildSources st cfg.maxSourcesPerAnswer top [] [])
  let llmTxt := synthesize_from_chunks cfg llm query chunksSources.1
  if !llmTxt.isEmpty then
    (post_process_answer cfg (sanitize_output cfg llmTxt), chunksSources.2)
  else
    let sentences := (chunksSources.1.map (fun ch =>
      (sentenceSplit (ch.map (fun c => if c == '\n' then ' ' else c))).filterMap
        (fun s => if (pyStrip s).isEmpty then none else some (pyStrip s)))).flatten
    let ranked := stableSortDesc (fun x => x.1)
      (sentences.map (sentenceRank qTokens))
    let out : List (List Char) :=
      match (ranked.take 1).map (fun x => x.2) with
      | [] => []
      | s0 :: _ =>
        let stepCandidates := ((ranked.drop 1).take 59).filterMap (fun x =>
          if stepVerbSearch x.2 then some x.2 else none)
        let steps := stepCandidates.take (min 5 cfg.pinpointMaxSteps)
        ("Resolution for: ".data ++ s0) :: "\nDo this:".data ::
          steps.enum.map (fun p =>
            (Nat.repr (p.1 + 1)).data ++ ". ".data ++ p.2)
    (post_process_answer cfg (sanitize_output cfg (pyStrip (pyJoin "\n".data out))),
     chunksSources.2)

/-! ### Top-level retrieval (kb.py 1302-1325) -/

/-- kb.py 1303: `re.sub(r"[^\w\s:/.-]", " ", query).strip()`. -/
def kbCleanQuery (query : List Char) : List Char :=
  pyStrip (query.map (fun c =>
    if isWordCh c || pyIsWs c || c == ':' || c == '/' || c == '.' || c == '-'
    then c else ' '))

/-- The answer text built for a winning row (kb.py 1310-1314): the strict
remedy-only path formats deterministically; otherwise the LLM formatter is
tried, falling back to the deterministic formatter, and sanitized. -/
noncomputable def rowAnswerText (cfg : Config) (llm : Llm) (row : Row)
    (q : List Char) : List Char :=
  if cfg.strictRemedyOnly ∧ !(pyStrip row.remedy).isEmpty then
    format_row_better cfg row
  else
    let s := synthesize_from_row cfg llm row q
    sanitize_output cfg (if s.isEmpty then format_row_better cfg row else s)

/-- The fall-through tail of `answer_from_kb` (kb.py 1320-1325). -/
noncomputable def fallbackKb (cfg : Config) (fz : Fz) (llm : Llm)
    (st : KBState) (q : List Char) :
    Bool × List Char × List (List Char × List Char) :=
  if !st.sections.isEmpty then
    let p := answer_sections cfg fz llm st q
    if !(pyStrip p.1).isEmpty then (true, p.1, p.2) else (false, [], [])
  else (false, [], [])

/-- kb.py `answer_from_kb`. -/
noncomputable def answer_from_kb (cfg : Config) (fz : Fz) (llm : Llm)
    (st : KBState) (query : List Char) :
    Bool × List Char × List (List Char × List Char) :=
  let q := kbCleanQuery query
  match get_row_candidates cfg fz st q 12 with
  | c0 :: _ =>
    if (cfg.rowScoreMin : ℝ) ≤ c0.1 then
      (true, post_process_answer cfg (rowAnswerText cfg llm c0.2.2.row q),
        [(c0.2.2.title, c0.2.2.url)])
    else fallbackKb cfg fz llm st q
  | [] => fallbackKb cfg fz llm st q

/-! ### Concrete inputs used by witnesses and counterexamples -/

/-- Number of numbered-step lines in an answer. -/
def numberedLineCount (s : List Char) : ℕ :=
  ((pySplitlines s).filter isNumberedLine).length

/-- C3 counterexample row: an error-code row with no remedy, matched exactly,
on a generically titled page. -/
def cexRow3 : Row :=
  { error := "ORA-12154".data, cause := [], remedy := [], suggestions := [],
    raw := [], text := "ORA-12154".data }

/-- C8 counterexample row: a row with a remedy, scored against the empty
query. -/
def cexRow8 : Row :=
  { error := "err".data, cause := [], remedy := "fix".data, suggestions := [],
    raw := [], text := "err fix".data }

/-- C5 counterexample row: a remedy with twelve action-like fragments. -/
def cexRow5 : Row :=
  { error := "E1".data, cause := [],
    remedy := ("Open A. Open B. Open C. Open D. Open E. Open F. " ++
      "Open G. Open H. Open I. Open J. Open K. Open L.").data,
    suggestions := [], raw := [], text := [] }

/-- A header row `Error | Cause | Remedy` of `th` cells. -/
def c9HeaderTr : TrE :=
  ⟨[⟨true, "Error".data⟩, ⟨true, "Cause".data⟩, ⟨true, "Remedy".data⟩]⟩

/-- A data row of three `td` cells. -/
def c9DataTr (e c r : List Char) : TrE :=
  ⟨[⟨false, e⟩, ⟨false, c⟩, ⟨false, r⟩]⟩

/-- The C9 table: header row followed by one data row. -/
def c9Table (e c r : List Char) : TableE :=
  ⟨none, [c9HeaderTr, c9DataTr e c r]⟩

/-- A one-row knowledge base for the C1 witness. -/
def wRow1 : Row :=
  { error := "abc".data, cause := [], remedy := [], suggestions := [],
    raw := [], text := "abc".data }

def wState1 : KBState :=
  { pages := [], sections := [],
    rows := [{ title := [], url := "u".data, row := wRow1 }],
    rowTokens := [], sectionBM25 := none, rowBM25 := none }

/-- A two-document corpus for the C7 witness. -/
def wBM : BM25 :=
  mkBM25 [["aaa".data], ["aaa".data, "bbb".data]]

/-- A corpus with one zero-length document, for the C8 witness. -/
def wBM8 : BM25 :=
  mkBM25 [[]]

/-! ## Lemmas -/

/-! ### Substring and strip facts -/

theorem isPrefixOf_refl_append (m b : List Char) :
    m.isPrefixOf (m ++ b) = true := by
  induction m with
  | nil => simp
  | cons c t ih => simp [List.isPrefixOf, ih]

theorem containsSub_append_middle (a m b : List Char) :
    containsSub (a ++ (m ++ b)) m = true := by
  unfold containsSub
  rw [List.any_eq_true]
  refine ⟨m ++ b, ?_, isPrefixOf_refl_append m b⟩
  exact (List.mem_tails _ _).mpr ⟨a, rfl⟩

theorem pyLStrip_decomp (l : List Char) :
    l = l.takeWhile pyIsWs ++ pyLStrip l := by
  unfold pyLStrip
  exact (List.takeWhile_append_dropWhile pyIsWs l).symm

theorem pyRStrip_decomp (m : List Char) :
    m = pyRStrip m ++ (m.reverse.takeWhile pyIsWs).reverse := by
  unfold pyRStrip
  conv_lhs => rw [← m.reverse_reverse,
    ← List.takeWhile_append_dropWhile pyIsWs m.reverse]
  rw [List.reverse_append]

theorem pyStrip_decomp (l : List Char) :
    ∃ x y, l = x ++ (pyStrip l ++ y) := by
  refine ⟨l.takeWhile pyIsWs,
    ((pyLStrip l).reverse.takeWhile pyIsWs).reverse, ?_⟩
  conv_lhs => rw [pyLStrip_decomp l, pyRStrip_decomp (pyLStrip l)]
  rfl

theorem containsSub_pyLower_pyStrip {q e : List Char}
    (h : pyLower q = pyLower e) :
    containsSub (pyLower e) (pyLower (pyStrip q)) = true := by
  obtain ⟨x, y, hxy⟩ := pyStrip_decomp q
  have : pyLower q = pyLower x ++ (pyLower (pyStrip q) ++ pyLower y) := by
    conv_lhs => rw [hxy]
    simp [pyLower]
  rw [← h, this]
  exact containsSub_append_middle _ _ _

theorem dropWhile_idem (p : Char → Bool) (l : List Char) :
    (l.dropWhile p).dropWhile p = l.dropWhile p := by
  induction l with
  | nil => rfl
  | cons c t ih =>
    by_cases h : p c
    · simp [List.dropWhile_cons, h, ih]
    · simp [List.dropWhile_cons, h]

theorem dropWhile_head_not (p : Char → Bool) (l : List Char) :
    ∀ c, (l.dropWhile p).head? = some c → p c = false := by
  induction l with
  | nil => intro c h; simp at h
  | cons x t ih =>
    intro c h
    by_cases hx : p x
    · exact ih c (by simpa [List.dropWhile_cons, hx] using h)
    · simp [List.dropWhile_cons, hx] at h
      subst h
      simpa using hx

theorem pyRStrip_idem (m : List Char) : pyRStrip (pyRStrip m) = pyRStrip m := by
  unfold pyRStrip
  rw [List.reverse_reverse, dropWhile_idem]

theorem pyLStrip_pyRStrip_pyLStrip (l : List Char) :
    pyLStrip (pyRStrip (pyLStrip l)) = pyRStrip (pyLStrip l) := by
  cases hm : pyRStrip (pyLStrip l) with
  | nil => rfl
  | cons c t =>
    have hhead : (pyLStrip l).head? = some c := by
      have hd := pyRStrip_decomp (pyLStrip l)
      rw [hm] at hd
      rw [hd]
      rfl
    have hc : pyIsWs c = false := dropWhile_head_not pyIsWs l c hhead
    simp [pyLStrip, List.dropWhile_cons, hc]

theorem pyStrip_idem (l : List Char) : pyStrip (pyStrip l) = pyStrip l := by
  unfold pyStrip
  rw [pyLStrip_pyRStrip_pyLStrip l, pyRStrip_idem]

/-! ### Row-scorer facts -/

theorem score_row_bounds (cfg : Config) (fz : Fz) (row : Row)
    (query pageTitle : List Char) :
    0 ≤ score_row_against_query cfg fz row query pageTitle ∧
    score_row_against_query cfg fz row query pageTitle ≤ 1 := by
  unfold score_row_against_query
  exact ⟨le_max_left 0 _, max_le (by norm_num) (min_le_left _ _)⟩

theorem hardScore_exact (cfg : Config) (row : Row) (query : List Char)
    (hhm : cfg.errorRowHardmatch = true)
    (hq : pyLower query = pyLower row.error)
    (hne : pyStrip query ≠ []) :
    hardScore cfg row (pyStrip query) (pyLower (pyStrip query)) = 1 := by
  have hql : pyLower (pyStrip query) ≠ [] := by
    simp only [pyLower, ne_eq, List.map_eq_nil_iff]
    exact hne
  have herr : row.error ≠ [] := by
    intro h
    rw [h] at hq
    simp only [pyLower, List.map_nil, List.map_eq_nil_iff] at hq
    rw [hq] at hne
    exact hne rfl
  have hcont : containsSub (pyLower row.error) (pyLower (pyStrip query)) = true :=
    containsSub_pyLower_pyStrip hq
  simp only [hardScore, hhm, if_true]
  rw [if_pos]
  simp [hcont, List.isEmpty_iff, herr, hql]

/-! ## Claim theorems

One theorem per claim (plus a witness, counterexample or failing-input
evaluation where the claim's status needs one). -/

/-- **C2** (confirmed).  For every row record, query string, and page title,
`score_row_against_query` — the maximum of the hard-match score and the
weighted fuzzy base, plus the additive bias terms and minus the
generic-title penalty, clamped — lands in the closed interval `[0, 1]`. -/
theorem score_row_in_unit_interval (cfg : Config) (fz : Fz) (row : Row)
    (query pageTitle : List Char) :
    score_row_against_query cfg fz row query pageTitle ∈ Set.Icc (0 : ℚ) 1 :=
  ⟨(score_row_bounds cfg fz row query pageTitle).1,
   (score_row_bounds cfg fz row query pageTitle).2⟩

/-- **C3** (counterexample).  With hard-match mode enabled (the default
configuration), a row whose error text `ORA-12154` is case-insensitively
equal to the query scores only `0.94` when its page title is the generic
`faq`, its remedy is empty and no other bias applies — below the claimed
`0.95` — even with both fuzzy ratios at their maximal value `100`: the
generic-title penalty is subtracted after the hard match. -/
theorem score_row_hard_match_cex :
    defaultConfig.errorRowHardmatch = true ∧
    cexRow3.error ≠ [] ∧
    pyLower "ora-12154".data = pyLower cexRow3.error ∧
    score_row_against_query defaultConfig (constFz 100) cexRow3
      "ora-12154".data "faq".data < 0.95 := by
  refine ⟨rfl, by decide, by decide, ?_⟩
  have h2 : extractQuerySpans (pyStrip "ora-12154".data) = [] := by decide
  simp +decide [score_row_against_query, hardScore, fuzzyBase, spanHitCount,
    titleGenericPenalty, constFz, defaultConfig, cexRow3, h2]
  norm_num [max_def, min_def]

/-- **C3** (amended).  With hard-match mode enabled, for every row and every
query whose stripped text is non-empty and case-insensitively equal to the
row's error text, `score_row_against_query` returns at least `0.95`
regardless of the fuzzy similarity components — provided the page title
incurs no generic-title penalty (and the configured error-page bias and the
fuzzy ratios are non-negative, as they are for the default configuration and
the real `rapidfuzz` ratios). -/
theorem score_row_hard_match_amended (cfg : Config) (fz : Fz) (row : Row)
    (query pageTitle : List Char)
    (hhm : cfg.errorRowHardmatch = true)
    (hbias : 0 ≤ cfg.errorPageBias)
    (hfz : ∀ a b, 0 ≤ fz.pr a b ∧ 0 ≤ fz.tsr a b)
    (hq : pyLower query = pyLower row.error)
    (hne : pyStrip query ≠ [])
    (hpen : titleGenericPenalty pageTitle = 0) :
    0.95 ≤ score_row_against_query cfg fz row query pageTitle := by
  have hhard := hardScore_exact cfg row query hhm hq hne
  unfold score_row_against_query
  rw [hpen]
  have h1 : (1 : ℚ) ≤
      max (hardScore cfg row (pyStrip query) (pyLower (pyStrip query)))
        (fuzzyBase fz (pyLower (pyStrip query)) row.error row.text) := by
    rw [hhard]
    exact le_max_left 1 _
  have h2 : (0 : ℚ) ≤ (if row.remedy.isEmpty = true then 0 else 0.08) := by
    split <;> norm_num
  have h3 : (0 : ℚ) ≤
      (if (!row.remedy.isEmpty && decide (120 < row.remedy.length)) = true
       then 0.03 else 0) := by
    split <;> norm_num
  have h4 : (0 : ℚ) ≤
      (if (!pageTitle.isEmpty &&
            cfg.errorTitleHints.any fun h => containsSub (pyLower pageTitle) h) =
          true then cfg.errorPageBias else 0) := by
    split
    · exact hbias
    · norm_num
  have h5 : (0 : ℚ) ≤
      (if (uiVisibilitySearch (pyLower (pyStrip query)) &&
            (uiVisibilitySearch (pyLower row.text) ||
              uiVisibilitySearch (pyLower row.error))) = true then 0.08
       else 0) := by
    split <;> norm_num
  have h6 : (0 : ℚ) ≤ 0.05 * (spanHitCount row (pyStrip query) : ℚ) := by
    positivity
  have h7 : (0 : ℚ) ≤
      (if pageTitle.isEmpty = true then 0
       else 0.04 * (fz.pr (pyLower (pyStrip query)) (pyLower pageTitle) / 100)) := by
    split
    · norm_num
    · have := (hfz (pyLower (pyStrip query)) (pyLower pageTitle)).1
      positivity
  have hB : (1 : ℚ) ≤
      max (hardScore cfg row (pyStrip query) (pyLower (pyStrip query)))
        (fuzzyBase fz (pyLower (pyStrip query)) row.error row.text) +
      (if row.remedy.isEmpty = true then 0 else 0.08) +
      (if (!row.remedy.isEmpty && decide (120 < row.remedy.length)) = true
       then 0.03 else 0) +
      (if (!pageTitle.isEmpty &&
            cfg.errorTitleHints.any fun h => containsSub (pyLower pageTitle) h) =
          true then cfg.errorPageBias else 0) +
      (if (uiVisibilitySearch (pyLower (pyStrip query)) &&
            (uiVisibilitySearch (pyLower row.text) ||
              uiVisibilitySearch (pyLower row.error))) = true then 0.08
       else 0) +
      0.05 * (spanHitCount row (pyStrip query) : ℚ) +
      (if pageTitle.isEmpty = true then 0
       else 0.04 * (fz.pr (pyLower (pyStrip query)) (pyLower pageTitle) / 100)) -
      0 := by
    linarith
  calc (0.95 : ℚ) ≤ 1 := by norm_num
    _ = min 1 _ := (min_eq_left hB).symm
    _ ≤ max 0 _ := le_max_right 0 _

/-- Witness for the amended C3 at a concrete input. -/
theorem score_row_hard_match_amended_w :
    (pyStrip "abc".data ≠ [] ∧ titleGenericPenalty [] = 0) ∧
    (0.95 : ℚ) ≤ score_row_against_query defaultConfig (constFz 0) wRow1
      "abc".data [] :=
  ⟨⟨by decide, by decide⟩,
   score_row_hard_match_amended defaultConfig (constFz 0) wRow1 "abc".data []
     rfl (by norm_num [defaultConfig])
     (fun a b => ⟨le_refl 0, le_refl 0⟩) (by decide) (by decide) (by decide)⟩

/-- The scoring loop over an empty document adds nothing: every term has
frequency zero and is skipped. -/
theorem foldl_termContrib_nil (bm : BM25) (dl av : ℝ)
    (q : List (List Char)) (a : ℝ) :
    q.foldl (fun acc t => acc + bm.termContrib [] dl av t) a = a := by
  induction q generalizing a with
  | nil => rfl
  | cons t ts ih => simp [List.foldl_cons, BM25.termContrib, ih]

theorem bm25_score_nil_query (bm : BM25) (idx : ℕ) : bm.score [] idx = 0 := by
  simp [BM25.score]

theorem bm25_score_empty_doc (bm : BM25) (q : List (List Char)) (idx : ℕ)
    (h : bm.docsTokens.getD idx [] = []) : bm.score q idx = 0 := by
  simp only [BM25.score, h]
  exact foldl_termContrib_nil bm _ _ q 0

theorem bm25_avgdl_nonneg (bm : BM25) : 0 ≤ bm.avgdl := by
  unfold BM25.avgdl
  split
  · exact le_refl 0
  · positivity

/-- **C8** (counterexample).  On the empty query, `score_row_against_query`
does not return `0.0`: a row with a non-empty remedy on an error-hinted page
title collects the additive biases (`0.08 + 0.18 = 0.26`) even though the
query is empty (fuzzy ratios `0`, as `rapidfuzz` returns for an empty
string). -/
theorem scoring_degenerate_cex :
    score_row_against_query defaultConfig (constFz 0) cexRow8 []
        "errors page".data = 0.26 ∧
    (0.26 : ℚ) ≠ 0 := by
  constructor
  · have h1 : errorCodeSearch (pyStrip []) = none := by decide
    have h2 : extractQuerySpans (pyStrip []) = [] := by decide
    simp +decide [score_row_against_query, hardScore, fuzzyBase, spanHitCount,
      titleGenericPenalty, constFz, defaultConfig, cexRow8, h1, h2]
    norm_num [max_def, min_def]
  · norm_num

/-- **C8** (amended).  The degenerate scoring inputs are handled without a
division by zero: `BM25.score` returns `0.0` on an empty query and on a
zero-length (or out-of-range, hence empty-read) document — in Python an
empty corpus makes any index out of range, and every call site guards the
index — and its two `or 1` division guards are positive;
`score_row_against_query` never raises and always lands in `[0, 1]`, but on
an empty query it returns the sum of its bias terms, which can be non-zero
(see the counterexample). -/
theorem scoring_degenerate_amended (bm : BM25) (q : List (List Char))
    (idx : ℕ) (cfg : Config) (fz : Fz) (row : Row)
    (query pageTitle : List Char) :
    bm.score [] idx = 0 ∧
    (bm.docsTokens.getD idx [] = [] → bm.score q idx = 0) ∧
    (0 < if bm.avgdl = 0 then (1 : ℝ) else bm.avgdl) ∧
    (0 < if bm.docLen.getD idx 0 = 0 then (1 : ℝ) else (bm.docLen.getD idx 0 : ℝ)) ∧
    0 ≤ score_row_against_query cfg fz row query pageTitle ∧
    score_row_against_query cfg fz row query pageTitle ≤ 1 := by
  refine ⟨bm25_score_nil_query bm idx, bm25_score_empty_doc bm q idx, ?_, ?_,
    (score_row_bounds cfg fz row query pageTitle).1,
    (score_row_bounds cfg fz row query pageTitle).2⟩
  · split
    · norm_num
    · rename_i h
      exact lt_of_le_of_ne (bm25_avgdl_nonneg bm) (Ne.symm h)
  · split
    · norm_num
    · rename_i h
      exact_mod_cast Nat.pos_of_ne_zero h

/-- Witness for the amended C8: the empty corpus-document cases at concrete
inputs. -/
theorem scoring_degenerate_amended_w :
    wBM8.docsTokens.getD 0 [] = [] ∧ wBM8.score ["abc".data] 0 = 0 :=
  ⟨by decide,
   (scoring_degenerate_amended wBM8 ["abc".data] 0 defaultConfig (constFz 0)
     cexRow8 [] []).2.1 (by decide)⟩

/-! ### BM25 index facts -/

theorem bm25_df_le_N (bm : BM25) (t : List Char) : bm.df t ≤ bm.N := by
  unfold BM25.df BM25.N
  exact List.countP_le_length _

theorem bm25_idf_arg_pos (bm : BM25) (t : List Char) :
    0 < 1 + ((bm.N : ℝ) - (bm.df t : ℝ) + 0.5) / ((bm.df t : ℝ) + 0.5) := by
  have hdf : (bm.df t : ℝ) ≤ (bm.N : ℝ) := by
    exact_mod_cast bm25_df_le_N bm t
  have hnum : (0 : ℝ) ≤ (bm.N : ℝ) - (bm.df t : ℝ) + 0.5 := by linarith
  have hden : (0 : ℝ) < (bm.df t : ℝ) + 0.5 := by positivity
  have := div_nonneg hnum (le_of_lt hden)
  linarith

theorem bm25_idf_nonneg (bm : BM25) (t : List Char) : 0 ≤ bm.idf t := by
  unfold BM25.idf
  split
  · exact le_refl 0
  · rename_i hN
    apply Real.log_nonneg
    have hdf : (bm.df t : ℝ) ≤ (bm.N : ℝ) := by
      exact_mod_cast bm25_df_le_N bm t
    have hnum : (0 : ℝ) ≤ (bm.N : ℝ) - (bm.df t : ℝ) + 0.5 := by linarith
    have hden : (0 : ℝ) < (bm.df t : ℝ) + 0.5 := by positivity
    have := div_nonneg hnum (le_of_lt hden)
    linarith

theorem bm25_idf_antitone (bm : BM25) (t1 t2 : List Char)
    (h : bm.df t1 ≤ bm.df t2) : bm.idf t2 ≤ bm.idf t1 := by
  unfold BM25.idf
  split
  · exact le_refl 0
  · rename_i hN0
    have h1 := bm25_idf_arg_pos bm t1
    have h2 := bm25_idf_arg_pos bm t2
    apply (Real.log_le_log_iff h2 h1).mpr
    have hd : (bm.df t1 : ℝ) ≤ (bm.df t2 : ℝ) := by exact_mod_cast h
    have hd1 : (0 : ℝ) < (bm.df t1 : ℝ) + 0.5 := by positivity
    have hd2 : (0 : ℝ) < (bm.df t2 : ℝ) + 0.5 := by positivity
    have key : ((bm.N : ℝ) - (bm.df t2 : ℝ) + 0.5) / ((bm.df t2 : ℝ) + 0.5) ≤
        ((bm.N : ℝ) - (bm.df t1 : ℝ) + 0.5) / ((bm.df t1 : ℝ) + 0.5) := by
      rw [div_le_div_iff₀ hd2 hd1]
      nlinarith [Nat.cast_nonneg (α := ℝ) bm.N]
    linarith

theorem bm25_score_append (bm : BM25) (q : List (List Char)) (t : List Char)
    (idx : ℕ) :
    bm.score (q ++ [t]) idx =
      bm.score q idx +
        bm.termContrib (bm.docsTokens.getD idx [])
          (if bm.docLen.getD idx 0 = 0 then 1 else (bm.docLen.getD idx 0 : ℝ))
          (if bm.avgdl = 0 then 1 else bm.avgdl) t := by
  simp [BM25.score, List.foldl_append]

/-- **C7** (confirmed).  For a fixed corpus, `BM25.idf` is non-negative and
monotonically non-increasing in the term's document frequency, and it is `0`
when the corpus is empty; a query term absent from a document contributes
exactly `0` to `BM25.score` for that document; and scoring an empty
query-token list returns `0`. -/
theorem bm25_idf_score_properties (bm : BM25) (t t1 t2 : List Char)
    (q : List (List Char)) (idx : ℕ) :
    0 ≤ bm.idf t ∧
    (bm.df t1 ≤ bm.df t2 → bm.idf t2 ≤ bm.idf t1) ∧
    (bm.N = 0 → bm.idf t = 0) ∧
    ((bm.docsTokens.getD idx []).count t = 0 →
      bm.score (q ++ [t]) idx = bm.score q idx) ∧
    bm.score [] idx = 0 := by
  refine ⟨bm25_idf_nonneg bm t, bm25_idf_antitone bm t1 t2, ?_, ?_,
    bm25_score_nil_query bm idx⟩
  · intro hN
    simp [BM25.idf, hN]
  · intro habs
    rw [bm25_score_append bm q t idx]
    simp only [BM25.termContrib]
    rw [habs]
    simp

/-- Witness for C7 on a concrete two-document corpus: `bbb` is rarer than
`aaa`, so its idf is at least as large; a term absent from document `0`
contributes nothing; the empty query scores `0`. -/
theorem bm25_idf_score_properties_w :
    (wBM.df "bbb".data ≤ wBM.df "aaa".data ∧
      (wBM.docsTokens.getD 0 []).count "zzz".data = 0) ∧
    (wBM.idf "aaa".data ≤ wBM.idf "bbb".data ∧
      wBM.score (["aaa".data] ++ ["zzz".data]) 0 = wBM.score ["aaa".data] 0 ∧
      wBM.score [] 0 = 0) := by
  have h := bm25_idf_score_properties wBM "zzz".data "bbb".data "aaa".data
    ["aaa".data] 0
  exact ⟨⟨by decide, by decide⟩,
    ⟨h.2.1 (by decide), h.2.2.2.1 (by decide), h.2.2.2.2⟩⟩

/-- **C6** (confirmed).  Every token returned by `tokenize` has length at
least 3 and is not a stop word, and tokenizing the empty string yields the
empty sequence. -/
theorem tokenize_tokens (s : List Char) :
    (∀ w ∈ tokenize s, 3 ≤ w.length ∧ w ∉ STOP) ∧ tokenize "".data = [] := by
  constructor
  · intro w hw
    unfold tokenize at hw
    rw [List.mem_filter] at hw
    have h2 := hw.2
    simp only [Bool.and_eq_true, decide_eq_true_eq, Bool.not_eq_true'] at h2
    refine ⟨h2.1, ?_⟩
    intro hmem
    have hc : STOP.contains w = true := by
      simp [List.contains, hmem]
    rw [h2.2] at hc
    exact Bool.false_ne_true hc
  · rfl

/-- Witness for C6 at a concrete input. -/
theorem tokenize_tokens_w :
    "hello".data ∈ tokenize "Hello, the world!".data ∧
    3 ≤ "hello".data.length ∧ "hello".data ∉ STOP :=
  ⟨by decide, (tokenize_tokens "Hello, the world!".data).1 "hello".data (by decide)⟩

/-- **C5** (counterexample).  The *deterministically built* answer for a
winning row is capped at the static configured floor, not at the dynamic
ceiling: a remedy with twelve action-like fragments yields five numbered
steps under the default configuration, while the dynamic ceiling computed
from the same remedy is twelve (the dynamic cap only parameterizes the LLM
formatter prompts). -/
theorem step_cap_deterministic_cex :
    numberedLineCount (format_row_better defaultConfig cexRow5) = 5 ∧
    actionyCount cexRow5.remedy = 12 ∧
    estimateStepCapFromText cexRow5.remedy defaultConfig.pinpointMaxSteps = 12 ∧
    (5 : ℕ) ≠ 12 :=
  ⟨by decide, by decide, by decide, by decide⟩

/-- **C5** (amended).  `_estimate_step_cap_from_text` — computed for the LLM
synthesis prompts — maps the count of action-like fragments through the
claimed tiers (≥12 → 12, ≥9 → 10, ≥7 → 8, ≥5 → 7, else the configured
floor) and never exceeds the absolute ceiling of 20, for a configured floor
in the expected range `4..7` (default `5`); the deterministic
`format_row_better` instead caps its numbered steps at the configured floor
itself. -/
theorem estimate_step_cap_amended (txt : List Char) (bc : ℕ)
    (h4 : 4 ≤ bc) (h7 : bc ≤ 7) :
    (12 ≤ actionyCount txt → estimateStepCapFromText txt bc = 12) ∧
    (9 ≤ actionyCount txt ∧ actionyCount txt < 12 →
      estimateStepCapFromText txt bc = 10) ∧
    (7 ≤ actionyCount txt ∧ actionyCount txt < 9 →
      estimateStepCapFromText txt bc = 8) ∧
    (5 ≤ actionyCount txt ∧ actionyCount txt < 7 →
      estimateStepCapFromText txt bc = 7) ∧
    (actionyCount txt < 5 → estimateStepCapFromText txt bc = bc) ∧
    estimateStepCapFromText txt bc ≤ 20 ∧
    (∀ cfg row, (formatRowSteps cfg row).length ≤ cfg.pinpointMaxSteps) := by
  have hfmt : ∀ (cfg : Config) (row : Row),
      (formatRowSteps cfg row).length ≤ cfg.pinpointMaxSteps := by
    intro cfg row
    unfold formatRowSteps
    simp [List.length_take]
  by_cases hemp : txt.isEmpty = true
  · have htxt : txt = [] := by
      cases txt
      · rfl
      · simp at hemp
    subst htxt
    have hact : actionyCount [] = 0 := by decide
    have hval : estimateStepCapFromText [] bc = max 4 bc := rfl
    rw [hval]
    refine ⟨?_, ?_, ?_, ?_, ?_, ?_, hfmt⟩ <;> (try simp only [hact]) <;>
      intros <;> omega
  · simp only [estimateStepCapFromText]
    rw [if_neg hemp]
    refine ⟨?_, ?_, ?_, ?_, ?_, ?_, hfmt⟩
    · intro h
      rw [if_pos h]
      omega
    · intro h
      rw [if_neg (show ¬(12 ≤ actionyCount txt) by omega),
          if_pos (show 9 ≤ actionyCount txt from h.1)]
      omega
    · intro h
      rw [if_neg (show ¬(12 ≤ actionyCount txt) by omega),
          if_neg (show ¬(9 ≤ actionyCount txt) by omega),
          if_pos (show 7 ≤ actionyCount txt from h.1)]
      omega
    · intro h
      rw [if_neg (show ¬(12 ≤ actionyCount txt) by omega),
          if_neg (show ¬(9 ≤ actionyCount txt) by omega),
          if_neg (show ¬(7 ≤ actionyCount txt) by omega),
          if_pos (show 5 ≤ actionyCount txt from h.1)]
      omega
    · intro h
      rw [if_neg (show ¬(12 ≤ actionyCount txt) by omega),
          if_neg (show ¬(9 ≤ actionyCount txt) by omega),
          if_neg (show ¬(7 ≤ actionyCount txt) by omega),
          if_neg (show ¬(5 ≤ actionyCount txt) by omega)]
      omega
    · exact Nat.min_le_right _ _

/-- Witness for the amended C5 at a concrete input: five action-like
fragments give the tier-cap 7. -/
theorem estimate_step_cap_amended_w :
    ((4 : ℕ) ≤ 5 ∧ (5 : ℕ) ≤ 7 ∧
      5 ≤ actionyCount "Open A. Open B. Open C. Open D. Open E.".data ∧
      actionyCount "Open A. Open B. Open C. Open D. Open E.".data < 7) ∧
    estimateStepCapFromText "Open A. Open B. Open C. Open D. Open E.".data 5 = 7 :=
  ⟨⟨by decide, by decide, by decide, by decide⟩,
   (estimate_step_cap_amended "Open A. Open B. Open C. Open D. Open E.".data 5
     (by decide) (by decide)).2.2.2.1 ⟨by decide, by decide⟩⟩

/-- **C4** (code bug, failing input).  `sanitize_output` does *not* keep only
the first numbered-list block, contradicting its own inline comment ("Keep
only the first numbered list block (enforce single path)"): on
`"1. a\n2. b\n1. c"` the splitting regex cuts before *every* numbered line,
and the block filter keeps each block starting with `1.` — including the
head of the *second* list — while dropping step `2. b` of the *first*
list. -/
theorem sanitize_single_path_failing :
    sanitize_output defaultConfig "1. a\n2. b\n1. c".data =
      "1. a\n1. c".data := by
  decide

/-- `cleanCell` already ends in a `strip`, so stripping again is the
identity. -/
theorem pyStrip_cleanCell (x : List Char) :
    pyStrip (cleanCell x) = cleanCell x := by
  unfold cleanCell
  exact pyStrip_idem _

/-- **C9** (confirmed).  A table whose header row is `Error | Cause | Remedy`
with one data row of three cells yields exactly one `Row` whose fields are
the cleaned cell texts when the cleaned error cell has at least 3
characters, and no row at all when it is shorter. -/
theorem extract_table_round_trip (e c r : List Char) :
    (3 ≤ (cleanCell e).length →
      extract_table_rows_from_html [c9Table e c r] =
        [{ error := cleanCell e, cause := cleanCell c, remedy := cleanCell r,
           suggestions := [],
           raw := [("error".data, cleanCell e), ("cause".data, cleanCell c),
                   ("remedy".data, cleanCell r)],
           text := pyJoin [' ']
             ([cleanCell e, cleanCell c, cleanCell r].filter
               (fun v => !v.isEmpty)) }]) ∧
    ((cleanCell e).length < 3 → extract_table_rows_from_html [c9Table e c r] = []) := by
  have hH : tableHeaders ⟨none, [c9HeaderTr, c9DataTr e c r]⟩ =
      ["error".data, "cause".data, "remedy".data] := by
    simp only [tableHeaders, List.head?]
    decide
  have hbc : buildCells ["error".data, "cause".data, "remedy".data] [e, c, r] =
      [("error".data, cleanCell e), ("cause".data, cleanCell c),
       ("remedy".data, cleanCell r)] := by
    simp +decide [buildCells, List.enum, List.enumFrom, pyDictInsert]
  have hstripnil : pyStrip [] = [] := rfl
  have hrow : rowFromTr ["error".data, "cause".data, "remedy".data] [e, c, r] =
      { error := cleanCell e, cause := cleanCell c, remedy := cleanCell r,
        suggestions := [],
        raw := [("error".data, cleanCell e), ("cause".data, cleanCell c),
                ("remedy".data, cleanCell r)],
        text := pyJoin [' ']
          ([cleanCell e, cleanCell c, cleanCell r].filter
            (fun v => !v.isEmpty)) } := by
    simp +decide [rowFromTr, hbc, pyDictGet, List.find?, pyStrip_cleanCell,
      hstripnil]
    rw [show ([cleanCell e, cleanCell c, cleanCell r, ([] : List Char)]) =
        [cleanCell e, cleanCell c, cleanCell r] ++ [[]] from rfl]
    rw [List.filter_append]
    simp
  have hmain : extract_table_rows_from_html [c9Table e c r] =
      if 3 ≤ (cleanCell e).length then
        [rowFromTr ["error".data, "cause".data, "remedy".data] [e, c, r]]
      else [] := by
    simp only [extract_table_rows_from_html, c9Table, tableRows, List.map,
      List.flatten]
    rw [hH]
    rw [if_pos (show List.isEmpty ([] : List (List Char)) = true from rfl)]
    rw [if_neg (show ¬(List.isEmpty [e, c, r] = true) by simp)]
    rw [hrow]
    simp
  constructor
  · intro hlen
    rw [hmain, if_pos hlen, hrow]
  · intro hlen
    rw [hmain, if_neg (by omega)]

/-- Witness for C9 at a concrete table. -/
theorem extract_table_round_trip_w :
    (3 ≤ (cleanCell "Disk Full".data).length ∧
      (cleanCell "ab".data).length < 3) ∧
    (extract_table_rows_from_html
        [c9Table "Disk Full".data "No space".data "Free space".data] ≠ [] ∧
      extract_table_rows_from_html
        [c9Table "ab".data "No space".data "Free space".data] = []) := by
  refine ⟨⟨by decide, by decide⟩, ?_, ?_⟩
  · rw [(extract_table_round_trip "Disk Full".data "No space".data
      "Free space".data).1 (by decide)]
    simp
  · exact (extract_table_round_trip "ab".data "No space".data
      "Free space".data).2 (by decide)

/-- If `i < j` are in-range positions of `l`, the two elements at those
positions form a two-element sublist of `l`. -/
theorem pair_sublist_of_get {α : Type} :
    ∀ (l : List α) (i j : ℕ) (hi : i < l.length) (hj : j < l.length),
      i < j → ([l.get ⟨i, hi⟩, l.get ⟨j, hj⟩]).Sublist l := by
  intro l
  induction l with
  | nil => intro i j hi _ _; simp at hi
  | cons x t ih =>
    intro i j hi hj hij
    match i, j with
    | 0, j + 1 =>
      have hjt : j < t.length := by simpa using hj
      exact List.Sublist.cons₂ x
        (List.singleton_sublist.mpr (List.get_mem t j hjt))
    | i + 1, j + 1 =>
      have hit : i < t.length := by simpa using hi
      have hjt : j < t.length := by simpa using hj
      exact List.Sublist.cons x (ih i j hit hjt (by omega))

/-- A two-element sublist of `l` occupies two positions of `l` in order. -/
theorem pair_sublist_positions {α : Type} {x y : α} :
    ∀ {l : List α}, ([x, y]).Sublist l →
      ∃ p q, ∃ (hp : p < l.length) (hq : q < l.length),
        p < q ∧ l.get ⟨p, hp⟩ = x ∧ l.get ⟨q, hq⟩ = y := by
  intro l
  induction l with
  | nil => intro h; exact absurd (List.Sublist.length_le h) (by simp)
  | cons z t ih =>
    intro h
    cases h with
    | cons _ h1 =>
      obtain ⟨p, q, hp, hq, hpq, hgp, hgq⟩ := ih h1
      exact ⟨p + 1, q + 1, by simpa using hp, by simpa using hq,
        by omega, hgp, hgq⟩
    | cons₂ _ h1 =>
      have hy : y ∈ t := List.singleton_sublist.mp h1
      obtain ⟨⟨q, hq⟩, hgq⟩ := List.get_of_mem hy
      exact ⟨0, q + 1, by simp, by simpa using hq, by omega, rfl, hgq⟩

/-- C10: for every query, `get_row_candidates` returns at most `K = 12`
candidates, sorted in descending order of blended score, and any two
candidates with equal blended scores appear in their original row-extraction
order (the sort is stable with insertion-order tie-break): the returned
triples are pairwise score-descending, and whenever two returned candidates
carry equal scores the earlier one carries the strictly smaller original row
index. -/
theorem row_candidates_topk_sorted_stable (cfg : Config) (fz : Fz)
    (st : KBState) (q : List Char) :
    (get_row_candidates cfg fz st q 12).length ≤ 12 ∧
    (get_row_candidates cfg fz st q 12).Pairwise (fun a b => b.1 ≤ a.1) ∧
    (get_row_candidates cfg fz st q 12).Pairwise
      (fun a b => a.1 = b.1 → a.2.1 < b.2.1) := by
  have htrans : ∀ a b c : ℝ × ℕ × RowItem,
      (fun a b : ℝ × ℕ × RowItem => decide (b.1 ≤ a.1)) a b = true →
      (fun a b : ℝ × ℕ × RowItem => decide (b.1 ≤ a.1)) b c = true →
      (fun a b : ℝ × ℕ × RowItem => decide (b.1 ≤ a.1)) a c = true := by
    intro a b c hab hbc
    simp only [decide_eq_true_eq] at *
    exact le_trans hbc hab
  have htotal : ∀ a b : ℝ × ℕ × RowItem,
      ((fun a b : ℝ × ℕ × RowItem => decide (b.1 ≤ a.1)) a b ||
       (fun a b : ℝ × ℕ × RowItem => decide (b.1 ≤ a.1)) b a) = true := by
    intro a b
    simp only [Bool.or_eq_true, decide_eq_true_eq]
    exact le_total b.1 a.1
  have hget : get_row_candidates cfg fz st q 12 =
      (List.mergeSort
        (st.rows.enum.map (fun p => (candScore cfg fz st q p.1 p.2, p.1, p.2)))
        (fun a b => decide (b.1 ≤ a.1))).take 12 := rfl
  set cands :=
    st.rows.enum.map (fun p => (candScore cfg fz st q p.1 p.2, p.1, p.2))
    with hcands
  have hidx : ∀ (k : ℕ) (hk : k < cands.length),
      (cands.get ⟨k, hk⟩).2.1 = k := by
    intro k hk
    simp [hcands, List.get_eq_getElem, List.getElem_map, List.getElem_enum]
  have hnd : cands.Nodup := by
    rw [List.nodup_iff_injective_get]
    intro a b hEq
    obtain ⟨i, hi⟩ := a
    obtain ⟨j, hj⟩ := b
    have h1 := hidx i hi
    have h2 := hidx j hj
    rw [hEq] at h1
    exact Fin.ext (h1.symm.trans h2)
  have hmemIdx : ∀ a ∈ cands, ∃ (h : a.2.1 < cands.length),
      cands.get ⟨a.2.1, h⟩ = a := by
    intro a ha
    obtain ⟨⟨k, hk⟩, hgk⟩ := List.get_of_mem ha
    have hak : a.2.1 = k := by rw [← hgk]; exact hidx k hk
    refine ⟨hak ▸ hk, ?_⟩
    simp only [hak]
    exact hgk
  set s := List.mergeSort cands (fun a b => decide (b.1 ≤ a.1)) with hs
  have hsorted : List.Pairwise (fun a b => decide (b.1 ≤ a.1) = true) s :=
    List.sorted_mergeSort htrans htotal cands
  have hperm : s.Perm cands :=
    List.mergeSort_perm cands (fun a b => decide (b.1 ≤ a.1))
  have hndS : s.Nodup := hperm.nodup_iff.mpr hnd
  have hinjS := List.nodup_iff_injective_get.mp hndS
  refine ⟨?_, ?_, ?_⟩
  · rw [hget]
    exact List.length_take_le 12 _
  · rw [hget]
    exact (List.Pairwise.sublist (List.take_sublist 12 _) hsorted).imp
      (fun h => by simpa [decide_eq_true_eq] using h)
  · rw [hget]
    refine List.Pairwise.sublist (List.take_sublist 12 _) ?_
    rw [List.pairwise_iff_get]
    intro i j hij hEq
    have hmi : s.get i ∈ cands := hperm.mem_iff.mp (s.get_mem _ _)
    have hmj : s.get j ∈ cands := hperm.mem_iff.mp (s.get_mem _ _)
    obtain ⟨hbi, hgi⟩ := hmemIdx _ hmi
    obtain ⟨hbj, hgj⟩ := hmemIdx _ hmj
    have hneIdx : (s.get i).2.1 ≠ (s.get j).2.1 := by
      intro hk
      have hEl : s.get i = s.get j := by
        rw [← hgi, ← hgj]
        congr 1
        exact Fin.ext hk
      have hij2 := hinjS hEl
      rw [hij2] at hij
      exact lt_irrefl _ hij
    by_contra hlt
    have hord : (s.get j).2.1 < (s.get i).2.1 := by omega
    have hpairC : ([s.get j, s.get i]).Sublist cands := by
      have hps := pair_sublist_of_get cands _ _ hbj hbi hord
      rwa [hgj, hgi] at hps
    have hpairS : ([s.get j, s.get i]).Sublist s := by
      apply List.sublist_mergeSort htrans htotal _ hpairC
      refine List.pairwise_cons.mpr ⟨?_, by simp⟩
      intro a ha
      simp only [List.mem_singleton] at ha
      subst ha
      simp only [decide_eq_true_eq]
      exact le_of_eq hEq
    obtain ⟨p, q2, hp, hq2, hpq, hgp, hgq⟩ := pair_sublist_positions hpairS
    have hpj : (⟨p, hp⟩ : Fin s.length) = j := hinjS (by rw [hgp])
    have hqi : (⟨q2, hq2⟩ : Fin s.length) = i := hinjS (by rw [hgq])
    have hj2 : p = (j : ℕ) := congrArg Fin.val hpj
    have hi2 : q2 = (i : ℕ) := congrArg Fin.val hqi
    have hij3 : (i : ℕ) < (j : ℕ) := hij
    omega

/-- C1: when the knowledge base contains rows, the candidate list is
non-empty, and `answer_from_kb` returns `matched = true` with the top row
candidate formatted answer and that row source exactly when the top blended
score reaches the floor `rowScoreMin`; below the floor it falls through to
the section ranker (`fallbackKb`); and when additionally no section produces
a non-empty answer (no sections at all, or a blank section answer), it
returns `matched = false` with an empty answer and empty sources. -/
theorem answer_from_kb_gating (cfg : Config) (fz : Fz) (llm : Llm)
    (st : KBState) (query : List Char) (hrows : st.rows ≠ []) :
    get_row_candidates cfg fz st (kbCleanQuery query) 12 ≠ [] ∧
    ∀ c0 cs,
      get_row_candidates cfg fz st (kbCleanQuery query) 12 = c0 :: cs →
      (((cfg.rowScoreMin : ℝ) ≤ c0.1 →
          answer_from_kb cfg fz llm st query =
            (true, post_process_answer cfg
                (rowAnswerText cfg llm c0.2.2.row (kbCleanQuery query)),
              [(c0.2.2.title, c0.2.2.url)])) ∧
        (c0.1 < (cfg.rowScoreMin : ℝ) →
          answer_from_kb cfg fz llm st query =
            fallbackKb cfg fz llm st (kbCleanQuery query)) ∧
        (c0.1 < (cfg.rowScoreMin : ℝ) ∧
            (st.sections = [] ∨
              pyStrip
                (answer_sections cfg fz llm st (kbCleanQuery query)).1 = []) →
          answer_from_kb cfg fz llm st query = (false, [], []))) := by
  constructor
  · apply List.ne_nil_of_length_pos
    simp only [get_row_candidates, stableSortDesc, List.length_take,
      List.length_mergeSort, List.length_map, List.enum_length]
    have hlen : 0 < st.rows.length := List.length_pos.mpr hrows
    omega
  · intro c0 cs hc
    refine ⟨?_, ?_, ?_⟩
    · intro hge
      simp only [answer_from_kb, hc]
      rw [if_pos hge]
    · intro hlt
      simp only [answer_from_kb, hc]
      rw [if_neg (not_le.mpr hlt)]
    · rintro ⟨hlt, hdeg⟩
      simp only [answer_from_kb, hc]
      rw [if_neg (not_le.mpr hlt)]
      simp only [fallbackKb]
      rcases hdeg with hsec | hempty
      · rw [hsec]
        simp
      · by_cases hs : st.sections.isEmpty
        · simp [hs]
        · simp [hs, hempty]

/-- Witness for C1 at a concrete one-row knowledge base. -/
theorem answer_from_kb_gating_w :
    wState1.rows ≠ [] ∧
    get_row_candidates defaultConfig (constFz 0) wState1
      (kbCleanQuery "abc".data) 12 ≠ [] :=
  ⟨by simp [wState1],
   (answer_from_kb_gating defaultConfig (constFz 0) silentLlm wState1
      "abc".data (by simp [wState1])).1⟩

/-- Witness for C10 at a concrete one-row knowledge base. -/
theorem row_candidates_topk_sorted_stable_w :
    (get_row_candidates defaultConfig (constFz 0) wState1 "abc".data 12).length
      ≤ 12 :=
  (row_candidates_topk_sorted_stable defaultConfig (constFz 0) wState1
    "abc".data).1

end KB
